import Mathlib

/-!
Shallow embedding of the sector-calibrated differential-drive firmware
(SectorCalibrator, EncoderPCNT, PIDVel, Wheel, MotorPWM, DifferentialDrive).
C `float` arithmetic is modelled by exact rationals; decimal float literals
of the source (1e-9f, 1e-3f, 1e30f, ...) are modelled by the corresponding
exact decimal rationals. C arrays are modelled as total functions out of Nat
whose meaningful domain is the array bound; out-of-range cells are carried
around unchanged. Each embedded definition mirrors one source function.
-/

namespace Proto

/-- Saturation helper, mirrors the `_clamp` C helpers: `(x < a) ? a : (x > b) ? b : x`. -/
def clampQ (x a b : ℚ) : ℚ := if x < a then a else if x > b then b else x

/-! ## SectorCalibrator: trimmed mean (`SectorCalibrator::_trimmedMean`) -/

/-- Index scan of `_trimmedMean`: starting from `iMin = iMax = 0`, for each
`i = 1 .. n-1` replace `iMin` when `vals[i] < vals[iMin]` and `iMax` when
`vals[i] > vals[iMax]`.  Returns the final `(iMin, iMax)`. -/
def trimMinMaxIdx (vals : List ℚ) : Nat × Nat :=
  ((List.range vals.length).drop 1).foldl
    (fun p i =>
      ((if vals.getD i 0 < vals.getD p.1 0 then i else p.1),
       (if vals.getD i 0 > vals.getD p.2 0 then i else p.2)))
    (0, 0)

/-- `SectorCalibrator::_trimmedMean`: arithmetic mean when `n ≤ 2`, otherwise
the mean of the samples with the single min index and single max index
discarded (`cnt > 0` guard kept as in the source). -/
def trimmedMean (vals : List ℚ) : ℚ :=
  if vals.length = 0 then 0
  else if vals.length ≤ 2 then vals.sum / (vals.length : ℚ)
  else
    let p := trimMinMaxIdx vals
    let keep := (List.range vals.length).filter (fun i => decide (i ≠ p.1 ∧ i ≠ p.2))
    if 0 < keep.length then ((keep.map (fun i => vals.getD i 0)).sum) / (keep.length : ℚ)
    else 0

/-! ## SectorCalibrator: per-sector statistics used by `finishCalibrationIfReady` -/

/-- The filled samples of sector `k` across laps `0 .. targetN-1`
(the `tmp[]`/`n` gathering loop of `finishCalibrationIfReady`). -/
def collectSamples (targetN : Nat) (filled : Nat → Nat → Bool) (buf : Nat → Nat → ℚ)
    (k : Nat) : List ℚ :=
  (List.range targetN).filterMap (fun j => if filled k j then some (buf k j) else none)

/-- `mk = (n>0) ? _trimmedMean(tmp, n) : 0.0f` for sector `k`. -/
def calibSectorMean (targetN : Nat) (filled : Nat → Nat → Bool) (buf : Nat → Nat → ℚ)
    (k : Nat) : ℚ :=
  let smp := collectSamples targetN filled buf k
  if 0 < smp.length then trimmedMean smp else 0

/-- Sectors whose (trimmed) mean is strictly positive; the source loop
accumulates `globalSum += mk; globalCount++` exactly over these. -/
def calibPosSectors (ppr targetN : Nat) (filled : Nat → Nat → Bool)
    (buf : Nat → Nat → ℚ) : List Nat :=
  (List.range ppr).filter (fun k => decide (0 < calibSectorMean targetN filled buf k))

/-- `globalMean = globalSum / globalCount` of `finishCalibrationIfReady`. -/
def calibGlobalMean (ppr targetN : Nat) (filled : Nat → Nat → Bool)
    (buf : Nat → Nat → ℚ) : ℚ :=
  let pos := calibPosSectors ppr targetN filled buf
  ((pos.map (calibSectorMean targetN filled buf)).sum) / (pos.length : ℚ)

/-- The LUT write loop of `finishCalibrationIfReady`:
`mk = sectorMean[k]; if (mk <= 0) mk = globalMean; lut[k] = globalMean / mk`
for `k < ppr`, other cells unchanged. -/
def calibNewLut (ppr targetN : Nat) (filled : Nat → Nat → Bool) (buf : Nat → Nat → ℚ)
    (oldLut : Nat → ℚ) : Nat → ℚ :=
  let gm := calibGlobalMean ppr targetN filled buf
  fun k =>
    if k < ppr then
      gm / (if calibSectorMean targetN filled buf k ≤ 0 then gm
            else calibSectorMean targetN filled buf k)
    else oldLut k

/-! ## Pattern construction (`_buildPatternFromLUT_Fwd` / `_Rev`, and the
legacy `_buildPatternFromLUT`; the three bodies are identical up to which LUT
they read). Returns the new pattern function together with the ready flag. -/

/-- `p = (lut[k] != 0) ? 1/lut[k] : 1`, summed and min/max-scanned over
`k < ppr` (initial `minv = 1e30`, `maxv = -1e30`), then normalized by
`mean = (sum>0) ? sum/ppr : 1` (re-forced to 1 when `mean ≤ 0`);
`ready = (maxv - minv) > 1e-3`. -/
def buildPatternFromLUT (ppr : Nat) (lut : Nat → ℚ) : (Nat → ℚ) × Bool :=
  let p : Nat → ℚ := fun k => if lut k ≠ 0 then 1 / lut k else 1
  let acc := (List.range ppr).foldl
    (fun (a : ℚ × ℚ × ℚ) k =>
      (a.1 + p k,
       (if p k < a.2.1 then p k else a.2.1),
       (if p k > a.2.2 then p k else a.2.2)))
    (0, 10 ^ 30, -(10 ^ 30 : ℚ))
  let mean0 : ℚ := if 0 < acc.1 then acc.1 / (ppr : ℚ) else 1
  let mean : ℚ := if mean0 ≤ 0 then 1 else mean0
  (fun k => p k / mean, decide ((1 : ℚ) / 1000 < acc.2.2 - acc.2.1))

/-! ## Dual-LUT SectorCalibrator state (the current `SectorCalibrator.h/.cpp`) -/

/-- In-memory state of the dual-LUT `SectorCalibrator` (persistence is the
external NVS collaborator; `save()` is modelled by its in-memory effect, the
pattern rebuild). -/
structure SC where
  ppr : Nat
  maxLaps : Nat
  lutFwd : Nat → ℚ
  lutRev : Nat → ℚ
  patFwd : Nat → ℚ
  patRev : Nat → ℚ
  useFwd : Bool
  useRev : Bool
  patFwdReady : Bool
  patRevReady : Bool
  offFwd : Nat
  offRev : Nat
  modeDir : Int
  calibActive : Bool
  calibTargetN : Nat
  calibLap : Nat
  dtBuf : Nat → Nat → ℚ
  dtFilled : Nat → Nat → Bool
  alignActive : Bool
  alignTargetN : Nat
  alignLap : Nat
  alignBuf : Nat → Nat → ℚ

namespace SC

/-- `SectorCalibrator::correctDtDir`. -/
def correctDtDir (s : SC) (k : Nat) (dt : ℚ) (stepDir : Int) : ℚ :=
  let forward := stepDir ≥ 0
  let off := if forward then s.offFwd else s.offRev
  let idx := (k + off) % s.ppr
  if forward then (if s.useFwd then dt * s.lutFwd idx else dt)
  else (if s.useRev then dt * s.lutRev idx else dt)

/-- `SectorCalibrator::startCalibrationDir` (including `_resetCalibBuffers`,
which clears cells `(k, j)` for `k < ppr`, `j < lapsN`). -/
def startCalibrationDir (s : SC) (lapsN : Nat) (stepDir : Int) : Bool × SC :=
  if lapsN = 0 ∨ s.maxLaps < lapsN then (false, s)
  else
    (true,
     { s with
        modeDir := if stepDir ≥ 0 then 1 else -1
        calibTargetN := lapsN
        calibLap := 0
        calibActive := true
        dtBuf := fun k j => if j < lapsN ∧ k < s.ppr then 0 else s.dtBuf k j
        dtFilled := fun k j => if j < lapsN ∧ k < s.ppr then false else s.dtFilled k j })

/-- `SectorCalibrator::startAlignmentDir` (including `_resetAlignBuffers`). -/
def startAlignmentDir (s : SC) (lapsN : Nat) (stepDir : Int) : Bool × SC :=
  let forward := stepDir ≥ 0
  if lapsN = 0 ∨ s.maxLaps < lapsN then (false, s)
  else if forward ∧ ¬ s.patFwdReady then (false, s)
  else if ¬ forward ∧ ¬ s.patRevReady then (false, s)
  else
    (true,
     { s with
        modeDir := if forward then 1 else -1
        alignTargetN := lapsN
        alignLap := 0
        alignActive := true
        alignBuf := fun k j => if j < lapsN ∧ k < s.ppr then 0 else s.alignBuf k j })

/-- `SectorCalibrator::feedPeriod`: stores the sample in the calibration
buffer (marking it filled) and/or the alignment buffer of the current lap,
increasing the lap counter when `sectorK == ppr-1`. -/
def feedPeriod (s : SC) (sectorK : Nat) (dt : ℚ) : SC :=
  let s1 :=
    if s.calibActive ∧ s.calibLap < s.calibTargetN then
      { s with
          dtBuf := fun k j => if k = sectorK ∧ j = s.calibLap then dt else s.dtBuf k j
          dtFilled := fun k j => if k = sectorK ∧ j = s.calibLap then true else s.dtFilled k j
          calibLap := if sectorK = s.ppr - 1 then s.calibLap + 1 else s.calibLap }
    else s
  if s1.alignActive ∧ s1.alignLap < s1.alignTargetN then
    { s1 with
        alignBuf := fun k j => if k = sectorK ∧ j = s1.alignLap then dt else s1.alignBuf k j
        alignLap := if sectorK = s1.ppr - 1 then s1.alignLap + 1 else s1.alignLap }
  else s1

/-- In-memory effect of `SectorCalibrator::save()`: rebuild both patterns
from the (possibly new) LUTs. -/
def save (s : SC) : SC :=
  let f := buildPatternFromLUT s.ppr s.lutFwd
  let r := buildPatternFromLUT s.ppr s.lutRev
  { s with patFwd := f.1, patFwdReady := f.2, patRev := r.1, patRevReady := r.2 }

/-- `SectorCalibrator::finishCalibrationIfReady`: when armed and all laps are
in, compute the per-sector trimmed means, the global mean over positive
sectors, and overwrite the LUT of the armed direction; rebuild that pattern
and `save()`; disarm in every completed case. -/
def finishCalibrationIfReady (s : SC) : Bool × SC :=
  if ¬ s.calibActive then (false, s)
  else if s.calibLap < s.calibTargetN then (false, s)
  else
    let pos := calibPosSectors s.ppr s.calibTargetN s.dtFilled s.dtBuf
    if 0 < pos.length then
      let newLut := calibNewLut s.ppr s.calibTargetN s.dtFilled s.dtBuf
      let s1 :=
        if s.modeDir ≥ 0 then { s with lutFwd := newLut s.lutFwd }
        else { s with lutRev := newLut s.lutRev }
      (true, { (save s1) with calibActive := false })
    else (false, { s with calibActive := false })

/-- `SectorCalibrator::_bestOffsetSingleLap` for the dual calibrator:
`none` when the lap sum is not positive; otherwise the shift of `[0, ppr)`
minimizing the per-sector L1 distance between the mean-normalized lap window
and the chosen direction's pattern (first minimizer wins; initial best is
`(0, 1e30)` as in the source). -/
def bestOffsetSingleLap (s : SC) (lapIdx : Nat) (forward : Bool) : Option (Nat × ℚ) :=
  let sum := ((List.range s.ppr).map (fun k => s.alignBuf k lapIdx)).sum
  if sum ≤ 0 then none
  else
    let mean := sum / (s.ppr : ℚ)
    let pattern := if forward then s.patFwd else s.patRev
    some ((List.range s.ppr).foldl
      (fun (best : Nat × ℚ) shift =>
        let err := ((List.range s.ppr).map
          (fun k => |s.alignBuf k lapIdx / mean - pattern ((k + shift) % s.ppr)|)).sum
        let score := err / (s.ppr : ℚ)
        if score < best.2 then (shift, score) else best)
      (0, 10 ^ 30))

/-- Lap voting of `finishAlignmentIfReady`: fold over laps accumulating the
vote table and the globally best `(score, offset)` (initial `(1e30, 0)`). -/
def alignVotes (s : SC) (forward : Bool) : (Nat → Nat) × ℚ × Nat :=
  (List.range s.alignTargetN).foldl
    (fun (acc : (Nat → Nat) × ℚ × Nat) j =>
      match bestOffsetSingleLap s j forward with
      | some os =>
          let votes := fun k => if k = os.1 then acc.1 k + 1 else acc.1 k
          if os.2 < acc.2.1 then (votes, os.2, os.1) else (votes, acc.2.1, acc.2.2)
      | none => acc)
    ((fun _ => 0), 10 ^ 30, 0)

/-- `SectorCalibrator::finishAlignmentIfReady`: when armed and all laps are
in, vote across laps, pick the plurality offset (ties and the no-vote case
fall back to the best single-lap offset, initially 0), store it in the armed
direction's offset, disarm, `save()`; returns `(offset, best score)`. -/
def finishAlignmentIfReady (s : SC) : Option (Nat × ℚ) × SC :=
  if ¬ s.alignActive then (none, s)
  else if s.alignLap < s.alignTargetN then (none, s)
  else
    let forward := s.modeDir ≥ 0
    let va := alignVotes s forward
    let maj := (List.range s.ppr).foldl
      (fun (p : Nat × Nat) k => if p.2 < va.1 k then (k, va.1 k) else p)
      (va.2.2, 0)
    let finalOff := maj.1
    let s1 :=
      if forward then { s with offFwd := finalOff } else { s with offRev := finalOff }
    (some (finalOff, va.2.1), save { s1 with alignActive := false })

end SC

/-! ## Legacy single-LUT SectorCalibrator (the variant consumed by
`EncoderPCNT.cpp`, whose `_applyPeriodAndCompute` calls `correctDt(k, dt)`). -/

/-- In-memory state of the legacy single-LUT `SectorCalibrator`. -/
structure LSC where
  ppr : Nat
  maxLaps : Nat
  lut : Nat → ℚ
  pattern : Nat → ℚ
  useLUT : Bool
  patternReady : Bool
  calibActive : Bool
  calibTargetN : Nat
  calibLap : Nat
  dtBuf : Nat → Nat → ℚ
  dtFilled : Nat → Nat → Bool
  alignActive : Bool
  alignTargetN : Nat
  alignLap : Nat
  alignBuf : Nat → Nat → ℚ

namespace LSC

/-- Legacy `SectorCalibrator::correctDt`: `useLUT ? dt * lut[k] : dt`. -/
def correctDt (s : LSC) (k : Nat) (dt : ℚ) : ℚ :=
  if ¬ s.useLUT then dt else dt * s.lut k

/-- Legacy `SectorCalibrator::feedPeriod` (same dual calib/align logic as the
dual-LUT version). -/
def feedPeriod (s : LSC) (sectorK : Nat) (dt : ℚ) : LSC :=
  let s1 :=
    if s.calibActive ∧ s.calibLap < s.calibTargetN then
      { s with
          dtBuf := fun k j => if k = sectorK ∧ j = s.calibLap then dt else s.dtBuf k j
          dtFilled := fun k j => if k = sectorK ∧ j = s.calibLap then true else s.dtFilled k j
          calibLap := if sectorK = s.ppr - 1 then s.calibLap + 1 else s.calibLap }
    else s
  if s1.alignActive ∧ s1.alignLap < s1.alignTargetN then
    { s1 with
        alignBuf := fun k j => if k = sectorK ∧ j = s1.alignLap then dt else s1.alignBuf k j
        alignLap := if sectorK = s1.ppr - 1 then s1.alignLap + 1 else s1.alignLap }
  else s1

/-- In-memory effect of the legacy `save()`: rebuild the pattern. -/
def save (s : LSC) : LSC :=
  let f := buildPatternFromLUT s.ppr s.lut
  { s with pattern := f.1, patternReady := f.2 }

/-- Legacy `SectorCalibrator::finishCalibrationIfReady` (single LUT). -/
def finishCalibrationIfReady (s : LSC) : Bool × LSC :=
  if ¬ s.calibActive then (false, s)
  else if s.calibLap < s.calibTargetN then (false, s)
  else
    let pos := calibPosSectors s.ppr s.calibTargetN s.dtFilled s.dtBuf
    if 0 < pos.length then
      let newLut := calibNewLut s.ppr s.calibTargetN s.dtFilled s.dtBuf
      (true, { (save { s with lut := newLut s.lut }) with calibActive := false })
    else (false, { s with calibActive := false })

/-- Legacy `SectorCalibrator::_bestOffsetSingleLap` (matches against the
single pattern). -/
def bestOffsetSingleLap (s : LSC) (lapIdx : Nat) : Option (Nat × ℚ) :=
  let sum := ((List.range s.ppr).map (fun k => s.alignBuf k lapIdx)).sum
  if sum ≤ 0 then none
  else
    let mean := sum / (s.ppr : ℚ)
    some ((List.range s.ppr).foldl
      (fun (best : Nat × ℚ) shift =>
        let err := ((List.range s.ppr).map
          (fun k => |s.alignBuf k lapIdx / mean - s.pattern ((k + shift) % s.ppr)|)).sum
        let score := err / (s.ppr : ℚ)
        if score < best.2 then (shift, score) else best)
      (0, 10 ^ 30))

/-- Legacy lap voting fold of `finishAlignmentIfReady`. -/
def alignVotes (s : LSC) : (Nat → Nat) × ℚ × Nat :=
  (List.range s.alignTargetN).foldl
    (fun (acc : (Nat → Nat) × ℚ × Nat) j =>
      match bestOffsetSingleLap s j with
      | some os =>
          let votes := fun k => if k = os.1 then acc.1 k + 1 else acc.1 k
          if os.2 < acc.2.1 then (votes, os.2, os.1) else (votes, acc.2.1, acc.2.2)
      | none => acc)
    ((fun _ => 0), 10 ^ 30, 0)

/-- Legacy `SectorCalibrator::finishAlignmentIfReady`: like the dual version
but it owns no stored offset (the caller applies the returned offset). -/
def finishAlignmentIfReady (s : LSC) : Option (Nat × ℚ) × LSC :=
  if ¬ s.alignActive then (none, s)
  else if s.alignLap < s.alignTargetN then (none, s)
  else
    let va := alignVotes s
    let maj := (List.range s.ppr).foldl
      (fun (p : Nat × Nat) k => if p.2 < va.1 k then (k, va.1 k) else p)
      (va.2.2, 0)
    (some (maj.1, va.2.1), { s with alignActive := false })

end LSC

/-! ## EncoderPCNT (`EncoderPCNT.cpp`): velocity estimator over the ISR
snapshot.  The ISR-owned snapshot `(count, period)` and the millisecond clock
are inputs of `update`; the float constant `PI` is its exact rational value. -/

/-- Exact value of the C `float` constant `PI` (0x40490FDB). -/
def piF : ℚ := 13176795 / 4194304

/-- Estimator state of `EncoderPCNT` (config fields inlined; `lastConsumed`
is the consumed-count cursor of `update`). -/
structure Enc where
  ppr : Nat
  countsPerRev : Nat
  alphaPeriod : ℚ
  invert : Bool
  timeoutStopMs : Nat
  sectorIdx : Nat
  stepDir : Int
  periodEmaUs : ℚ
  rpm : ℚ
  omega : ℚ
  totalCount : Int
  lastSeenMs : Nat
  lastConsumed : Nat
  cal : Option LSC

namespace Enc

/-- The calibrator-integration prologue of `_applyPeriodAndCompute`: feed the
period while calibrating/aligning, poll the two completions (applying the
alignment offset to the sector index and zeroing the EMA on success), then
route `dt` through `correctDt` at the current sector index. -/
def calStep (e : Enc) (dt : ℚ) : Enc × ℚ :=
  match e.cal with
  | none => (e, dt)
  | some c0 =>
    let e1 :=
      if c0.calibActive ∨ c0.alignActive then
        let c1 := LSC.feedPeriod c0 e.sectorIdx dt
        let c2 := if c1.calibActive then (LSC.finishCalibrationIfReady c1).2 else c1
        if c2.alignActive then
          let r := LSC.finishAlignmentIfReady c2
          match r.1 with
          | some os =>
              { e with cal := some r.2, sectorIdx := os.1, periodEmaUs := 0,
                       rpm := 0, omega := 0 }
          | none => { e with cal := some r.2 }
        else { e with cal := some c2 }
      else e
    match e1.cal with
    | some c => (e1, LSC.correctDt c e1.sectorIdx dt)
    | none => (e1, dt)

/-- `EncoderPCNT::_applyPeriodAndCompute`: calibrator integration, period
EMA, rpm/omega derivation (with optional sign inversion), and the sector
step in the current direction. -/
def applyPeriodAndCompute (e0 : Enc) (dt_us : Nat) (nowMs : Nat) : Enc :=
  let st := calStep e0 ((dt_us : ℚ))
  let e := st.1
  let dt := st.2
  let ema := if e.periodEmaUs ≤ 0 then dt
             else (1 - e.alphaPeriod) * e.periodEmaUs + e.alphaPeriod * dt
  let e2 : Enc := { e with periodEmaUs := ema }
  let e3 : Enc :=
    if 0 < e2.periodEmaUs then
      let revPerS := 1000000 / ((e2.countsPerRev : ℚ) * e2.periodEmaUs)
      let rpm0 := 60 * revPerS
      let omega0 := 2 * piF * revPerS
      { e2 with rpm := if e2.invert then -rpm0 else rpm0,
                omega := if e2.invert then -omega0 else omega0,
                lastSeenMs := nowMs,
                totalCount := e2.totalCount + 1 }
    else e2
  if 0 < e3.stepDir then { e3 with sectorIdx := (e3.sectorIdx + 1) % e3.ppr }
  else { e3 with sectorIdx := if e3.sectorIdx = 0 then e3.ppr - 1 else e3.sectorIdx - 1 }

/-- `EncoderPCNT::update`: consume the snapshot.  No new count: collapse to
zero on timeout.  Otherwise process `delta = cntSnap - lastConsumed`
(uint32 subtraction) pulses, each reusing the snapshot period `perSnap`
(skipped entirely while `perSnap == 0`). -/
def update (e : Enc) (cntSnap perSnap : Nat) (nowMs : Nat) : Enc :=
  if cntSnap = e.lastConsumed then
    if e.timeoutStopMs < nowMs - e.lastSeenMs then
      { e with rpm := 0, omega := 0, periodEmaUs := 0 }
    else e
  else
    let delta := (cntSnap + 2 ^ 32 - e.lastConsumed) % 2 ^ 32
    let e1 := { e with lastConsumed := cntSnap }
    (List.range delta).foldl
      (fun st _ => if perSnap = 0 then st else applyPeriodAndCompute st perSnap nowMs) e1

end Enc

/-! ## PIDVel (`PIDVel.cpp`): incremental velocity-form PID. -/

/-- `PIDVel::Config`. -/
structure PIDConfig where
  Kp : ℚ
  Ki : ℚ
  Kd : ℚ
  Ts : ℚ
  uMin : ℚ
  uMax : ℚ
  clampOutput : Bool

/-- Mutable state of `PIDVel` (coefficients are cached in the object and
recomputed only by `_recomputeCoeffs`). -/
structure PIDState where
  e : ℚ
  e1 : ℚ
  e2 : ℚ
  u : ℚ
  uPrev : ℚ
  refMag : ℚ
  measMag : ℚ
  c0 : ℚ
  c1 : ℚ
  c2 : ℚ

/-- `PIDVel::_recomputeCoeffs`: `Ts` is replaced by `1e-3` when it is not
greater than `1e-9`; returns `(c0, c1, c2)`. -/
def recomputeCoeffs (cfg : PIDConfig) : ℚ × ℚ × ℚ :=
  let Ts : ℚ := if (1 : ℚ) / 10 ^ 9 < cfg.Ts then cfg.Ts else 1 / 10 ^ 3
  (cfg.Kp + cfg.Kd / Ts, -cfg.Kp + cfg.Ki * Ts - 2 * cfg.Kd / Ts, cfg.Kd / Ts)

/-- `PIDVel::reset`: zero the error history and force `u[n-1] = u0`. -/
def pidReset (st : PIDState) (u0 : ℚ) : PIDState :=
  { st with e := 0, e1 := 0, e2 := 0, uPrev := u0, u := u0 }

/-- The constructor `PIDVel::PIDVel`: compute coefficients, then `reset(0)`. -/
def pidInit (cfg : PIDConfig) : PIDState :=
  let c := recomputeCoeffs cfg
  pidReset { e := 0, e1 := 0, e2 := 0, u := 0, uPrev := 0, refMag := 0, measMag := 0,
             c0 := c.1, c1 := c.2.1, c2 := c.2.2 } 0

/-- `PIDVel::update`: `u[n] = u[n-1] + c0 e[n] + c1 e[n-1] + c2 e[n-2]`,
optionally clamped, then the state shift. -/
def pidUpdate (cfg : PIDConfig) (st : PIDState) (refMag measMag : ℚ) : ℚ × PIDState :=
  let e := refMag - measMag
  let un0 := st.uPrev + st.c0 * e + st.c1 * st.e1 + st.c2 * st.e2
  let un := if cfg.clampOutput then clampQ un0 cfg.uMin cfg.uMax else un0
  (un, { st with refMag := refMag, measMag := measMag, e := e,
                 e2 := st.e1, e1 := e, uPrev := un, u := un })

/-! ## Wheel (`Wheel.cpp`): reference-sign bookkeeping around the PID. -/

/-- The slice of `Wheel` state involved in `setOmegaRef`. -/
structure WheelRef where
  omegaRef : ℚ
  refSign : Int
  lastRefSign : Int
  pid : PIDState

/-- `Wheel::setOmegaRef`: derive `refSign` (+1 when `ω_ref ≥ 0`), and on a
sign change reset the PID to 0 (bumpless) and latch the new sign. -/
def setOmegaRef (w : WheelRef) (omegaRefSigned : ℚ) : WheelRef :=
  let rs : Int := if 0 ≤ omegaRefSigned then 1 else -1
  let w1 := { w with omegaRef := omegaRefSigned, refSign := rs }
  if rs ≠ w.lastRefSign then { w1 with pid := pidReset w1.pid 0, lastRefSign := rs }
  else w1

/-! ## DifferentialDrive (`DifferentialDrive.cpp`): twist→wheel kinematics
and the wheel-limit rescale. -/

/-- Geometry/limit slice of `DifferentialDrive::Config`. -/
structure DDConfig where
  wheelRadius : ℚ
  trackWidth : ℚ
  omegaWheelMax : ℚ
  rescaleTwistToWheelLimit : Bool

/-- `DifferentialDrive::_computeWheelOmegasFromTwist_`:
`wR = (v + (L/2) w)/r`, `wL = (v - (L/2) w)/r`, with the radius guarded
against division by ~0 (`r = 1e-3` when `wheelRadius ≤ 1e-9`). -/
def computeWheelOmegasFromTwist (cfg : DDConfig) (v w : ℚ) : ℚ × ℚ :=
  let r : ℚ := if (1 : ℚ) / 10 ^ 9 < cfg.wheelRadius then cfg.wheelRadius else 1 / 10 ^ 3
  let halfL := (1 / 2 : ℚ) * cfg.trackWidth
  ((v + halfL * w) / r, (v - halfL * w) / r)

/-- `DifferentialDrive::_maybeRescaleToWheelLimit_`: when the larger wheel
magnitude exceeds a positive limit, scale `(v, w)` by `k = limit / aMax` and
re-derive the wheel omegas; otherwise leave all four values alone. -/
def maybeRescaleToWheelLimit (cfg : DDConfig) (v w wR wL : ℚ) : ℚ × ℚ × ℚ × ℚ :=
  let aR := |wR|
  let aL := |wL|
  let aMax := if aL < aR then aR else aL
  if aMax ≤ cfg.omegaWheelMax ∨ cfg.omegaWheelMax ≤ 0 then (v, w, wR, wL)
  else
    let k := cfg.omegaWheelMax / aMax
    let v1 := v * k
    let w1 := w * k
    let ww := computeWheelOmegasFromTwist cfg v1 w1
    (v1, w1, ww.1, ww.2)

/-- The kinematics portion of `DifferentialDrive::update` (after the ramps):
derive the wheel omegas from the commanded twist and apply the rescale when
`omegaWheelMax > 0` and the rescale flag is set. -/
def updateKinematics (cfg : DDConfig) (v w : ℚ) : ℚ × ℚ × ℚ × ℚ :=
  let ww := computeWheelOmegasFromTwist cfg v w
  if 0 < cfg.omegaWheelMax ∧ cfg.rescaleTwistToWheelLimit then
    maybeRescaleToWheelLimit cfg v w ww.1 ww.2
  else (v, w, ww.1, ww.2)

/-! ## MotorPWM (`MotorPWM.cpp`): deadband / minimum-output remap. -/

/-- `MotorPWM::_applyDeadbandMin_`: zero inside the symmetric deadband,
otherwise rescale `|x|` from `[deadband, 1]` onto `[minOut, 1]` (with the
intermediate `s` clamped to `[0,1]`), carrying the sign of `x`. -/
def applyDeadbandMin (x deadband minOut : ℚ) : ℚ :=
  if |x| < deadband then 0
  else
    let s0 := (|x| - deadband) / (1 - deadband)
    let s1 := if s0 < 0 then 0 else s0
    let s := if 1 < s1 then 1 else s1
    let y := minOut + (1 - minOut) * s
    if 0 ≤ x then y else -y

/-- The slew-rate step of `MotorPWM::update`: move `applied` toward `target`
by at most `slewRatePerSec * dt` (or jump when the rate is disabled). -/
def motorSlewStep (slewRatePerSec dt target applied : ℚ) : ℚ :=
  if 0 < slewRatePerSec ∧ 0 < dt then
    let maxStep := slewRatePerSec * dt
    let err := target - applied
    if maxStep < err then applied + maxStep
    else if err < -maxStep then applied - maxStep
    else target
  else target

/-! ## Concrete states used to exercise the embedded operations. -/

/-- A freshly constructed dual calibrator with `ppr = 4`, neutral LUTs. -/
def exSC0 : SC :=
  { ppr := 4, maxLaps := 12
    lutFwd := fun _ => 1, lutRev := fun _ => 1
    patFwd := fun _ => 1, patRev := fun _ => 1
    useFwd := true, useRev := true
    patFwdReady := false, patRevReady := false
    offFwd := 0, offRev := 0
    modeDir := 1
    calibActive := false, calibTargetN := 0, calibLap := 0
    dtBuf := fun _ _ => 0, dtFilled := fun _ _ => false
    alignActive := false, alignTargetN := 0, alignLap := 0
    alignBuf := fun _ _ => 0 }

/-- The feed sequence of spec scenario 1: three forward laps over 4 sectors
with per-sector samples (100,110,105), (200,220,210), (100,110,105),
(100,110,105). -/
def exFeeds : List (Nat × ℚ) :=
  [(0, 100), (1, 200), (2, 100), (3, 100),
   (0, 110), (1, 220), (2, 110), (3, 110),
   (0, 105), (1, 210), (2, 105), (3, 105)]

/-- Scenario 1 state after `startCalibrationDir(3, +1)` and all 12 feeds. -/
def exSCFed : SC :=
  exFeeds.foldl (fun s p => SC.feedPeriod s p.1 p.2) (SC.startCalibrationDir exSC0 3 1).2

/-- A completed-alignment-run state whose recorded lap is all zeros and whose
stored forward offset is 2. -/
def exSCAlign : SC :=
  { exSC0 with offFwd := 2, modeDir := 1, alignActive := true,
               alignTargetN := 1, alignLap := 1 }

/-- A legacy calibrator in normal operation with an active doubling LUT. -/
def exLSC : LSC :=
  { ppr := 6, maxLaps := 12, lut := fun _ => 2, pattern := fun _ => 1
    useLUT := true, patternReady := false
    calibActive := false, calibTargetN := 0, calibLap := 0
    dtBuf := fun _ _ => 0, dtFilled := fun _ _ => false
    alignActive := false, alignTargetN := 0, alignLap := 0
    alignBuf := fun _ _ => 0 }

/-- Estimator of spec scenario 5: `PPR = 6`, no calibrator attached. -/
def exEnc : Enc :=
  { ppr := 6, countsPerRev := 6, alphaPeriod := 1 / 4, invert := false
    timeoutStopMs := 2000, sectorIdx := 0, stepDir := 1, periodEmaUs := 0
    rpm := 0, omega := 0, totalCount := 0, lastSeenMs := 0, lastConsumed := 0
    cal := none }

/-- The same estimator with `periodEmaUs` settled at 10000 and the doubling
LUT calibrator attached. -/
def exEncLut : Enc := { exEnc with periodEmaUs := 10000, cal := some exLSC }

/-- PID configuration of spec scenario 3 (`Kp=0.5, Ki=1, Kd=0, Ts=0.01`). -/
def exPIDCfg : PIDConfig :=
  { Kp := 1 / 2, Ki := 1, Kd := 0, Ts := 1 / 100, uMin := 0, uMax := 1,
    clampOutput := true }

/-- A PID configuration whose positive `Ts` falls below the `1e-9` guard. -/
def exPIDTiny : PIDConfig :=
  { Kp := 1, Ki := 1, Kd := 1, Ts := 1 / 10 ^ 10, uMin := 0, uMax := 1,
    clampOutput := false }

/-- A wheel slice holding a saturated forward PID state. -/
def exWheel : WheelRef :=
  { omegaRef := 1, refSign := 1, lastRefSign := 1
    pid := { e := 0, e1 := 3, e2 := 2, u := 1, uPrev := 1, refMag := 1,
             measMag := 0, c0 := 1, c1 := 1, c2 := 1 } }

/-- Drive geometry of spec scenario 4 (`r=0.05, L=0.2, omegaWheelMax=20`). -/
def exDD : DDConfig :=
  { wheelRadius := 1 / 20, trackWidth := 1 / 5, omegaWheelMax := 20,
    rescaleTwistToWheelLimit := true }

/-! ## Theorems -/

/-- C2: for every sector `k`, period `dt`, and step direction, `correctDtDir`
returns `dt * s_dir[(k + off_dir) mod PPR]` when the use flag of the
direction selected by the sign of `step_dir` is set, and returns `dt`
unchanged when that use flag is clear. -/
theorem correctDtDir_spec (s : SC) (k : Nat) (dt : ℚ) (stepDir : Int) :
    ((if stepDir ≥ 0 then s.useFwd else s.useRev) = true →
      SC.correctDtDir s k dt stepDir =
        dt * (if stepDir ≥ 0 then s.lutFwd else s.lutRev)
              ((k + (if stepDir ≥ 0 then s.offFwd else s.offRev)) % s.ppr)) ∧
    ((if stepDir ≥ 0 then s.useFwd else s.useRev) = false →
      SC.correctDtDir s k dt stepDir = dt) := by
  by_cases hd : stepDir ≥ 0
  · simp only [SC.correctDtDir, if_pos hd]
    constructor <;> intro hu <;> simp [hu]
  · simp only [SC.correctDtDir, if_neg hd]
    constructor <;> intro hu <;> simp [hu]

/-- Witness for C2 at a concrete state. -/
theorem correctDtDir_spec_witness :
    SC.correctDtDir exSC0 1 7 1 =
      7 * exSC0.lutFwd ((1 + exSC0.offFwd) % exSC0.ppr) := by
  have h := (correctDtDir_spec exSC0 1 7 1).1 (by decide)
  simpa using h

/-- C7: whenever the derived reference sign (+1 for `ω_ref ≥ 0`, −1
otherwise) differs from the previously latched one, `setOmegaRef` resets the
PID so that `u_prev = e[n-1] = e[n-2] = 0` exactly for the next update. -/
theorem setOmegaRef_flip_resetsPid (w : WheelRef) (omegaNew : ℚ)
    (h : (if 0 ≤ omegaNew then (1 : Int) else -1) ≠ w.lastRefSign) :
    (setOmegaRef w omegaNew).pid.uPrev = 0 ∧
    (setOmegaRef w omegaNew).pid.e1 = 0 ∧
    (setOmegaRef w omegaNew).pid.e2 = 0 := by
  simp only [setOmegaRef, if_pos h]
  simp [pidReset]

/-- Witness for C7: a flip from forward to reverse reference. -/
theorem setOmegaRef_flip_resetsPid_witness :
    (setOmegaRef exWheel (-1)).pid.uPrev = 0 ∧
    (setOmegaRef exWheel (-1)).pid.e1 = 0 ∧
    (setOmegaRef exWheel (-1)).pid.e2 = 0 :=
  setOmegaRef_flip_resetsPid exWheel (-1) (by decide)

/-- C10: `startCalibrationDir` fails when `lapsN = 0` or `lapsN > maxLaps`,
and `startAlignmentDir` additionally fails when the selected direction's
pattern is not ready; in every failing case the returned state is the input
state, unchanged. -/
theorem startRoutines_failfast (s : SC) (lapsN : Nat) (stepDir : Int) :
    ((lapsN = 0 ∨ s.maxLaps < lapsN) →
      SC.startCalibrationDir s lapsN stepDir = (false, s)) ∧
    ((lapsN = 0 ∨ s.maxLaps < lapsN ∨
        (stepDir ≥ 0 ∧ s.patFwdReady = false) ∨
        (¬ stepDir ≥ 0 ∧ s.patRevReady = false)) →
      SC.startAlignmentDir s lapsN stepDir = (false, s)) := by
  constructor
  · intro h
    simp only [SC.startCalibrationDir, if_pos h]
  · intro h
    rcases h with h | h | ⟨hd, hp⟩ | ⟨hd, hp⟩
    · simp only [SC.startAlignmentDir, if_pos (Or.inl h)]
    · simp only [SC.startAlignmentDir, if_pos (Or.inr h)]
    · by_cases hlap : lapsN = 0 ∨ s.maxLaps < lapsN
      · simp only [SC.startAlignmentDir, if_pos hlap]
      · simp only [SC.startAlignmentDir, if_neg hlap]
        rw [if_pos ⟨hd, by simp [hp]⟩]
    · by_cases hlap : lapsN = 0 ∨ s.maxLaps < lapsN
      · simp only [SC.startAlignmentDir, if_pos hlap]
      · simp only [SC.startAlignmentDir, if_neg hlap]
        by_cases hfwd : stepDir ≥ 0 ∧ ¬ s.patFwdReady = true
        · rw [if_pos hfwd]
        · rw [if_neg hfwd, if_pos ⟨hd, by simp [hp]⟩]

/-- Witness for C10: `lapsN = 0` rejects both routines on a fresh state. -/
theorem startRoutines_failfast_witness :
    SC.startCalibrationDir exSC0 0 1 = (false, exSC0) ∧
    SC.startAlignmentDir exSC0 0 1 = (false, exSC0) :=
  ⟨(startRoutines_failfast exSC0 0 1).1 (Or.inl rfl),
   (startRoutines_failfast exSC0 0 1).2 (Or.inl rfl)⟩

/-- Branch-free normal form of `applyDeadbandMin`. -/
theorem applyDeadbandMin_eq (x d m : ℚ) :
    applyDeadbandMin x d m =
      if |x| < d then 0
      else (if 0 ≤ x then (1 : ℚ) else -1) *
        (m + (1 - m) * min (max ((|x| - d) / (1 - d)) 0) 1) := by
  unfold applyDeadbandMin
  by_cases h : |x| < d
  · simp [h]
  · rw [if_neg h, if_neg h]
    have h0 : max ((|x| - d) / (1 - d)) 0 =
        if (|x| - d) / (1 - d) < 0 then 0 else (|x| - d) / (1 - d) := by
      rcases lt_or_le ((|x| - d) / (1 - d)) 0 with hc | hc
      · rw [if_pos hc, max_eq_right (le_of_lt hc)]
      · rw [if_neg (not_lt.mpr hc), max_eq_left hc]
    have h1 : ∀ y : ℚ, min y 1 = if 1 < y then 1 else y := by
      intro y
      rcases lt_or_le 1 y with hc | hc
      · rw [if_pos hc, min_eq_right (le_of_lt hc)]
      · rw [if_neg (not_lt.mpr hc), min_eq_left hc]
    rw [h0, h1]
    by_cases hx : 0 ≤ x
    · rw [if_pos hx, if_pos hx, one_mul]
    · rw [if_neg hx, if_neg hx]
      ring

/-- C9 (amended): with deadband `d ∈ [0,1)` and minimum output `m ∈ [0,1]`,
the remapped output is 0 when `|u| < d` and otherwise has magnitude
`m + (1-m)·s` with `s = (|u|-d)/(1-d)` clamped to `[0,1]`, carrying the sign
of `u`; when moreover `m > 0`, the output is 0 iff `|u| < d`; the magnitude
is `m` at `|u| = d` and 1 at `|u| = 1`. -/
theorem applyDeadbandMin_spec (u d m : ℚ) (_hd0 : 0 ≤ d) (hd1 : d < 1)
    (hm0 : 0 ≤ m) (hm1 : m ≤ 1) :
    (|u| < d → applyDeadbandMin u d m = 0) ∧
    (d ≤ |u| →
      |applyDeadbandMin u d m| = m + (1 - m) * min ((|u| - d) / (1 - d)) 1 ∧
      (0 ≤ u → 0 ≤ applyDeadbandMin u d m) ∧
      (u < 0 → applyDeadbandMin u d m ≤ 0)) ∧
    (0 < m → (applyDeadbandMin u d m = 0 ↔ |u| < d)) ∧
    (|u| = d → |applyDeadbandMin u d m| = m) ∧
    (|u| = 1 → |applyDeadbandMin u d m| = 1) := by
  rw [applyDeadbandMin_eq]
  by_cases h : |u| < d
  · refine ⟨fun _ => by rw [if_pos h], fun hge => absurd h (not_lt.mpr hge),
      fun _ => ?_, fun heq => ?_, fun h1 => ?_⟩
    · rw [if_pos h]; simp [h]
    · exact absurd h (by rw [heq]; exact lt_irrefl d)
    · exact absurd h (by rw [h1]; exact not_lt.mpr (le_of_lt hd1))
  · push_neg at h
    rw [if_neg (not_lt.mpr h)]
    have hden : (0 : ℚ) < 1 - d := by linarith
    have hs0 : 0 ≤ (|u| - d) / (1 - d) := div_nonneg (by linarith) (le_of_lt hden)
    have hmax : max ((|u| - d) / (1 - d)) 0 = (|u| - d) / (1 - d) := max_eq_left hs0
    rw [hmax]
    have hsle : 0 ≤ min ((|u| - d) / (1 - d)) 1 := le_min hs0 (by norm_num)
    have hy0 : 0 ≤ m + (1 - m) * min ((|u| - d) / (1 - d)) 1 := by
      have := mul_nonneg (by linarith : (0 : ℚ) ≤ 1 - m) hsle
      linarith
    have habs : |(if 0 ≤ u then (1 : ℚ) else -1) *
        (m + (1 - m) * min ((|u| - d) / (1 - d)) 1)| =
        m + (1 - m) * min ((|u| - d) / (1 - d)) 1 := by
      by_cases hx : 0 ≤ u
      · rw [if_pos hx, one_mul, abs_of_nonneg hy0]
      · rw [if_neg hx, neg_one_mul, abs_neg, abs_of_nonneg hy0]
    refine ⟨fun hlt => absurd hlt (not_lt.mpr h), fun _ => ⟨habs, ?_, ?_⟩,
      fun hm => ?_, fun heq => ?_, fun h1 => ?_⟩
    · intro hx; rw [if_pos hx, one_mul]; exact hy0
    · intro hx; rw [if_neg (not_le.mpr hx), neg_one_mul]; linarith
    · constructor
      · intro h0
        exfalso
        have hy : m + (1 - m) * min ((|u| - d) / (1 - d)) 1 = 0 := by
          by_cases hx : 0 ≤ u
          · rw [if_pos hx, one_mul] at h0; exact h0
          · rw [if_neg hx, neg_one_mul, neg_eq_zero] at h0; exact h0
        have := mul_nonneg (by linarith : (0 : ℚ) ≤ 1 - m) hsle
        linarith
      · intro hlt; exact absurd hlt (not_lt.mpr h)
    · rw [habs, heq, sub_self, zero_div]
      have : min (0 : ℚ) 1 = 0 := min_eq_left (by norm_num)
      rw [this, mul_zero, add_zero]
    · rw [habs, h1, div_self (ne_of_gt hden)]
      have : min (1 : ℚ) 1 = 1 := min_self 1
      rw [this, mul_one]
      ring

/-- Counterexample to C9 as stated: at `m = 0`, `d = 1/2`, `u = 1/2` the
output magnitude is 0 although `|u| < d` fails, so "magnitude 0 iff
`|u| < d`" is false. -/
theorem applyDeadbandMin_counterexample :
    applyDeadbandMin (1 / 2) (1 / 2) 0 = 0 ∧ ¬ (|(1 / 2 : ℚ)| < 1 / 2) := by
  have habs : |(1 / 2 : ℚ)| = 1 / 2 := abs_of_nonneg (by norm_num)
  constructor
  · rw [applyDeadbandMin_eq, habs]
    norm_num
  · rw [habs]
    exact lt_irrefl _

/-- Witness for C9 at `u = 3/4`, `d = 1/2`, `m = 1/10`. -/
theorem applyDeadbandMin_spec_witness :
    |applyDeadbandMin (3 / 4) (1 / 2) (1 / 10)| =
      1 / 10 + (1 - 1 / 10) * min ((|(3 / 4 : ℚ)| - 1 / 2) / (1 - 1 / 2)) 1 :=
  ((applyDeadbandMin_spec (3 / 4) (1 / 2) (1 / 10) (by norm_num) (by norm_num)
      (by norm_num) (by norm_num)).2.1
    (by rw [abs_of_nonneg (by norm_num : (0 : ℚ) ≤ 3 / 4)]; norm_num)).1

/-- C6 (amended): for every gain setting with `Ts > 1e-9` (below that the
code substitutes `Ts = 1e-3`) and coefficients cached from
`_recomputeCoeffs`, `update` computes
`u[n] = u[n-1] + c0 e[n] + c1 e[n-1] + c2 e[n-2]` with
`c0 = Kp + Kd/Ts`, `c1 = -Kp + Ki Ts - 2 Kd/Ts`, `c2 = Kd/Ts` and
`e[n] = ref - meas`, clamps it to `[uMin, uMax]` when clamping is enabled,
and the (clamped) value becomes `u[n-1]` for the next update while the error
history shifts. -/
theorem pidUpdate_spec (cfg : PIDConfig) (st : PIDState) (refMag measMag : ℚ)
    (hTs : (1 : ℚ) / 10 ^ 9 < cfg.Ts)
    (hc : (st.c0, st.c1, st.c2) = recomputeCoeffs cfg) :
    (pidUpdate cfg st refMag measMag).1 =
      (if cfg.clampOutput then
        clampQ (st.uPrev + (cfg.Kp + cfg.Kd / cfg.Ts) * (refMag - measMag)
          + (-cfg.Kp + cfg.Ki * cfg.Ts - 2 * cfg.Kd / cfg.Ts) * st.e1
          + (cfg.Kd / cfg.Ts) * st.e2) cfg.uMin cfg.uMax
       else st.uPrev + (cfg.Kp + cfg.Kd / cfg.Ts) * (refMag - measMag)
          + (-cfg.Kp + cfg.Ki * cfg.Ts - 2 * cfg.Kd / cfg.Ts) * st.e1
          + (cfg.Kd / cfg.Ts) * st.e2) ∧
    (pidUpdate cfg st refMag measMag).2.uPrev = (pidUpdate cfg st refMag measMag).1 ∧
    (pidUpdate cfg st refMag measMag).2.e1 = refMag - measMag ∧
    (pidUpdate cfg st refMag measMag).2.e2 = st.e1 := by
  simp only [recomputeCoeffs, if_pos hTs, Prod.mk.injEq] at hc
  obtain ⟨h0, h1, h2⟩ := hc
  refine ⟨?_, ?_, ?_, ?_⟩ <;>
    simp only [pidUpdate, h0, h1, h2]

/-- Counterexample to C6 as stated: `Ts = 1e-10` is a positive sampling
period, yet `update` from reset computes 1001 (using the substituted
`Ts = 1e-3`), not the `u[n-1] + (Kp + Kd/Ts)·e[n] + ...` value `1 + 1e10`
demanded by the claim. -/
theorem pidUpdate_counterexample :
    0 < exPIDTiny.Ts ∧
    (pidUpdate exPIDTiny (pidInit exPIDTiny) 1 0).1 = 1001 ∧
    (pidInit exPIDTiny).uPrev
      + (exPIDTiny.Kp + exPIDTiny.Kd / exPIDTiny.Ts) * (1 - 0)
      + (-exPIDTiny.Kp + exPIDTiny.Ki * exPIDTiny.Ts - 2 * exPIDTiny.Kd / exPIDTiny.Ts)
        * (pidInit exPIDTiny).e1
      + (exPIDTiny.Kd / exPIDTiny.Ts) * (pidInit exPIDTiny).e2 = 10000000001 ∧
    (1001 : ℚ) ≠ 10000000001 := by
  refine ⟨by norm_num [exPIDTiny], ?_, ?_, by norm_num⟩
  · norm_num [pidUpdate, pidInit, pidReset, recomputeCoeffs, clampQ, exPIDTiny]
  · norm_num [pidInit, pidReset, recomputeCoeffs, exPIDTiny]

/-- Witness for C6 at scenario-3 gains from the reset state. -/
theorem pidUpdate_spec_witness :
    (pidUpdate exPIDCfg (pidInit exPIDCfg) 1 0).1 =
      (if exPIDCfg.clampOutput then
        clampQ ((pidInit exPIDCfg).uPrev
          + (exPIDCfg.Kp + exPIDCfg.Kd / exPIDCfg.Ts) * (1 - 0)
          + (-exPIDCfg.Kp + exPIDCfg.Ki * exPIDCfg.Ts - 2 * exPIDCfg.Kd / exPIDCfg.Ts)
            * (pidInit exPIDCfg).e1
          + (exPIDCfg.Kd / exPIDCfg.Ts) * (pidInit exPIDCfg).e2)
          exPIDCfg.uMin exPIDCfg.uMax
       else (pidInit exPIDCfg).uPrev
          + (exPIDCfg.Kp + exPIDCfg.Kd / exPIDCfg.Ts) * (1 - 0)
          + (-exPIDCfg.Kp + exPIDCfg.Ki * exPIDCfg.Ts - 2 * exPIDCfg.Kd / exPIDCfg.Ts)
            * (pidInit exPIDCfg).e1
          + (exPIDCfg.Kd / exPIDCfg.Ts) * (pidInit exPIDCfg).e2) :=
  (pidUpdate_spec exPIDCfg (pidInit exPIDCfg) 1 0 (by norm_num [exPIDCfg])
    (by norm_num [pidInit, pidReset, recomputeCoeffs, exPIDCfg])).1

/-- Scaling the twist scales both derived wheel omegas linearly. -/
theorem computeWheelOmegas_scale (cfg : DDConfig) (v w k : ℚ) :
    computeWheelOmegasFromTwist cfg (v * k) (w * k) =
      (k * (computeWheelOmegasFromTwist cfg v w).1,
       k * (computeWheelOmegasFromTwist cfg v w).2) := by
  simp only [computeWheelOmegasFromTwist, Prod.mk.injEq]
  constructor <;> ring

/-- C8: with rescaling enabled and `omegaWheelMax > 0`, when
`max(|ω_R|, |ω_L|)` derived from the twist exceeds the limit, both `v` and
`w` are scaled by `k = limit / max(|ω_R|, |ω_L|)` and the re-derived wheel
speeds satisfy `max(|ω_R|, |ω_L|) ≤ limit`, while `v/w` is preserved exactly
when `w ≠ 0`; when the limit is not exceeded, everything is unchanged. -/
theorem rescale_spec (cfg : DDConfig) (v w : ℚ)
    (hre : cfg.rescaleTwistToWheelLimit = true) (hlim : 0 < cfg.omegaWheelMax) :
    (max |(computeWheelOmegasFromTwist cfg v w).1| |(computeWheelOmegasFromTwist cfg v w).2|
        ≤ cfg.omegaWheelMax →
      updateKinematics cfg v w =
        (v, w, (computeWheelOmegasFromTwist cfg v w).1,
         (computeWheelOmegasFromTwist cfg v w).2)) ∧
    (cfg.omegaWheelMax <
        max |(computeWheelOmegasFromTwist cfg v w).1|
            |(computeWheelOmegasFromTwist cfg v w).2| →
      (updateKinematics cfg v w).1 =
        v * (cfg.omegaWheelMax /
          max |(computeWheelOmegasFromTwist cfg v w).1|
              |(computeWheelOmegasFromTwist cfg v w).2|) ∧
      (updateKinematics cfg v w).2.1 =
        w * (cfg.omegaWheelMax /
          max |(computeWheelOmegasFromTwist cfg v w).1|
              |(computeWheelOmegasFromTwist cfg v w).2|) ∧
      max |(updateKinematics cfg v w).2.2.1| |(updateKinematics cfg v w).2.2.2|
        ≤ cfg.omegaWheelMax ∧
      (w ≠ 0 → (updateKinematics cfg v w).1 / (updateKinematics cfg v w).2.1 = v / w)) := by
  have hb : (cfg.rescaleTwistToWheelLimit : Prop) := by rw [hre]
  set wR := (computeWheelOmegasFromTwist cfg v w).1 with hwR
  set wL := (computeWheelOmegasFromTwist cfg v w).2 with hwL
  have hmax : (if |wL| < |wR| then |wR| else |wL|) = max |wR| |wL| := by
    rcases lt_or_le |wL| |wR| with h | h
    · rw [if_pos h, max_eq_left h.le]
    · rw [if_neg (not_lt.mpr h), max_eq_right h]
  constructor
  · intro hle
    simp only [updateKinematics, if_pos (And.intro hlim hb), maybeRescaleToWheelLimit,
      ← hwR, ← hwL, hmax]
    rw [if_pos (Or.inl hle)]
  · intro hgt
    have hamax : (0 : ℚ) < max |wR| |wL| := lt_trans hlim hgt
    have hcond : ¬ (max |wR| |wL| ≤ cfg.omegaWheelMax ∨ cfg.omegaWheelMax ≤ 0) := by
      push_neg
      exact ⟨hgt, hlim⟩
    have hk : (0 : ℚ) < cfg.omegaWheelMax / max |wR| |wL| := div_pos hlim hamax
    simp only [updateKinematics, if_pos (And.intro hlim hb), maybeRescaleToWheelLimit,
      ← hwR, ← hwL, hmax]
    rw [if_neg hcond]
    simp only [computeWheelOmegas_scale, ← hwR, ← hwL]
    refine ⟨trivial, trivial, ?_, ?_⟩
    · set k := cfg.omegaWheelMax / max |wR| |wL| with hkdef
      have h1 : |k * wR| = k * |wR| := by rw [abs_mul, abs_of_nonneg hk.le]
      have h2 : |k * wL| = k * |wL| := by rw [abs_mul, abs_of_nonneg hk.le]
      rw [h1, h2, ← mul_max_of_nonneg _ _ hk.le, hkdef,
        div_mul_cancel₀ _ (ne_of_gt hamax)]
    · intro hw
      exact mul_div_mul_right v w (ne_of_gt hk)

/-- Witness for C8 at spec scenario 4: `v = 1 m/s`, `w = 1 rad/s`,
`r = 0.05`, `L = 0.2`, limit 20; raw omegas are (22, 18). -/
theorem rescale_spec_witness :
    max |(updateKinematics exDD 1 1).2.2.1| |(updateKinematics exDD 1 1).2.2.2|
      ≤ exDD.omegaWheelMax ∧
    (updateKinematics exDD 1 1).1 / (updateKinematics exDD 1 1).2.1 = 1 / 1 := by
  have h := (rescale_spec exDD 1 1 rfl (by norm_num [exDD])).2
  have hgt : exDD.omegaWheelMax <
      max |(computeWheelOmegasFromTwist exDD 1 1).1|
          |(computeWheelOmegasFromTwist exDD 1 1).2| := by
    have h1 : (computeWheelOmegasFromTwist exDD 1 1).1 = 22 := by
      norm_num [computeWheelOmegasFromTwist, exDD]
    have h2 : (computeWheelOmegasFromTwist exDD 1 1).2 = 18 := by
      norm_num [computeWheelOmegasFromTwist, exDD]
    rw [h1, h2, abs_of_nonneg (by norm_num : (0 : ℚ) ≤ 22),
      abs_of_nonneg (by norm_num : (0 : ℚ) ≤ 18)]
    norm_num [exDD]
  exact ⟨(h hgt).2.2.1, (h hgt).2.2.2 (by norm_num)⟩

/-- Membership in the positive-sector list means a positive sector mean. -/
theorem calibPosSectors_mem_pos (ppr targetN : Nat) (filled : Nat → Nat → Bool)
    (buf : Nat → Nat → ℚ) (k : Nat)
    (hk : k ∈ calibPosSectors ppr targetN filled buf) :
    0 < calibSectorMean targetN filled buf k :=
  of_decide_eq_true (List.mem_filter.mp hk).2

/-- The positive-sector list is nonempty when some sector mean is positive. -/
theorem calibPosSectors_length_pos (ppr targetN : Nat) (filled : Nat → Nat → Bool)
    (buf : Nat → Nat → ℚ)
    (hex : ∃ k, k < ppr ∧ 0 < calibSectorMean targetN filled buf k) :
    0 < (calibPosSectors ppr targetN filled buf).length := by
  obtain ⟨k, hk, hpos⟩ := hex
  have hmem : k ∈ calibPosSectors ppr targetN filled buf :=
    List.mem_filter.mpr ⟨List.mem_range.mpr hk, decide_eq_true hpos⟩
  exact List.length_pos.mpr (List.ne_nil_of_mem hmem)

/-- The global mean is positive whenever some sector mean is. -/
theorem calibGlobalMean_pos (ppr targetN : Nat) (filled : Nat → Nat → Bool)
    (buf : Nat → Nat → ℚ)
    (hex : ∃ k, k < ppr ∧ 0 < calibSectorMean targetN filled buf k) :
    0 < calibGlobalMean ppr targetN filled buf := by
  have hlen := calibPosSectors_length_pos ppr targetN filled buf hex
  unfold calibGlobalMean
  refine div_pos (List.sum_pos _ ?_ ?_) ?_
  · intro x hx
    obtain ⟨k, hkmem, rfl⟩ := List.mem_map.mp hx
    exact calibPosSectors_mem_pos ppr targetN filled buf k hkmem
  · simp only [ne_eq, List.map_eq_nil_iff]
    exact List.length_pos.mp hlen
  · exact_mod_cast hlen

/-- Core of `finishCalibrationIfReady` on a completed run with a usable
sector: success is reported and exactly the armed direction's LUT is
overwritten with `calibNewLut`. -/
theorem finishCalib_core (s : SC) (h1 : s.calibActive = true)
    (h2 : s.calibTargetN ≤ s.calibLap)
    (hex : ∃ k, k < s.ppr ∧ 0 < calibSectorMean s.calibTargetN s.dtFilled s.dtBuf k) :
    (SC.finishCalibrationIfReady s).1 = true ∧
    (s.modeDir ≥ 0 →
      (SC.finishCalibrationIfReady s).2.lutFwd =
        calibNewLut s.ppr s.calibTargetN s.dtFilled s.dtBuf s.lutFwd ∧
      (SC.finishCalibrationIfReady s).2.lutRev = s.lutRev) ∧
    (¬ s.modeDir ≥ 0 →
      (SC.finishCalibrationIfReady s).2.lutRev =
        calibNewLut s.ppr s.calibTargetN s.dtFilled s.dtBuf s.lutRev ∧
      (SC.finishCalibrationIfReady s).2.lutFwd = s.lutFwd) := by
  have hlen := calibPosSectors_length_pos s.ppr s.calibTargetN s.dtFilled s.dtBuf hex
  have hnl : ¬ s.calibLap < s.calibTargetN := not_lt.mpr h2
  have hna : ¬ ¬ (s.calibActive : Prop) := by rw [h1]; exact not_not_intro rfl
  simp only [SC.finishCalibrationIfReady]
  rw [if_neg hna, if_neg hnl, if_pos hlen]
  by_cases hdir : s.modeDir ≥ 0
  · rw [if_pos hdir]
    refine ⟨rfl, fun _ => ⟨?_, ?_⟩, fun h => absurd hdir h⟩ <;> simp [SC.save]
  · rw [if_neg hdir]
    refine ⟨rfl, fun h => absurd h hdir, fun _ => ⟨?_, ?_⟩⟩ <;> simp [SC.save]

/-- Nat/Bool-level facts about the scenario-1 run state. -/
theorem exSCFed_facts :
    exSCFed.calibActive = true ∧ exSCFed.calibTargetN = 3 ∧ exSCFed.calibLap = 3 ∧
    exSCFed.modeDir = 1 ∧ exSCFed.ppr = 4 := by
  refine ⟨?_, ?_, ?_, ?_, ?_⟩ <;> decide

/-- The filled samples collected per sector in the scenario-1 run. -/
theorem exSCFed_samples :
    collectSamples 3 exSCFed.dtFilled exSCFed.dtBuf 0 = [100, 110, 105] ∧
    collectSamples 3 exSCFed.dtFilled exSCFed.dtBuf 1 = [200, 220, 210] ∧
    collectSamples 3 exSCFed.dtFilled exSCFed.dtBuf 2 = [100, 110, 105] ∧
    collectSamples 3 exSCFed.dtFilled exSCFed.dtBuf 3 = [100, 110, 105] := by
  refine ⟨?_, ?_, ?_, ?_⟩ <;> decide

/-- Trimmed sector means of the scenario-1 run: (105, 210, 105, 105). -/
theorem exSCFed_means :
    calibSectorMean 3 exSCFed.dtFilled exSCFed.dtBuf 0 = 105 ∧
    calibSectorMean 3 exSCFed.dtFilled exSCFed.dtBuf 1 = 210 ∧
    calibSectorMean 3 exSCFed.dtFilled exSCFed.dtBuf 2 = 105 ∧
    calibSectorMean 3 exSCFed.dtFilled exSCFed.dtBuf 3 = 105 := by
  obtain ⟨hs0, hs1, hs2, hs3⟩ := exSCFed_samples
  refine ⟨?_, ?_, ?_, ?_⟩ <;>
    simp only [calibSectorMean, hs0, hs1, hs2, hs3] <;>
    norm_num [trimmedMean, trimMinMaxIdx, List.range, List.range.loop, List.getD,
      List.get?, List.filter]

/-- All four sectors of the scenario-1 run carry positive means. -/
theorem exSCFed_pos :
    calibPosSectors 4 3 exSCFed.dtFilled exSCFed.dtBuf = [0, 1, 2, 3] := by
  obtain ⟨hm0, hm1, hm2, hm3⟩ := exSCFed_means
  have hd0 : decide ((0 : ℚ) < 105) = true := decide_eq_true (by norm_num)
  have hd1 : decide ((0 : ℚ) < 210) = true := decide_eq_true (by norm_num)
  rw [calibPosSectors, show List.range 4 = [0, 1, 2, 3] from rfl]
  simp [List.filter, hm0, hm1, hm2, hm3, hd0, hd1]

/-- Global mean of the scenario-1 run: `131.25 = 525/4`. -/
theorem exSCFed_gm :
    calibGlobalMean 4 3 exSCFed.dtFilled exSCFed.dtBuf = 525 / 4 := by
  obtain ⟨hm0, hm1, hm2, hm3⟩ := exSCFed_means
  simp only [calibGlobalMean, exSCFed_pos, List.map_cons, List.map_nil, List.sum_cons,
    List.sum_nil, List.length_cons, List.length_nil, hm0, hm1, hm2, hm3]
  norm_num

/-- LUT produced by the scenario-1 run: (5/4, 5/8, 5/4, 5/4). -/
theorem exSCFed_lut :
    (SC.finishCalibrationIfReady exSCFed).1 = true ∧
    (SC.finishCalibrationIfReady exSCFed).2.lutFwd 0 = 5 / 4 ∧
    (SC.finishCalibrationIfReady exSCFed).2.lutFwd 1 = 5 / 8 ∧
    (SC.finishCalibrationIfReady exSCFed).2.lutFwd 2 = 5 / 4 ∧
    (SC.finishCalibrationIfReady exSCFed).2.lutFwd 3 = 5 / 4 := by
  obtain ⟨ha, ht, hl, hmd, hp⟩ := exSCFed_facts
  obtain ⟨hm0, hm1, hm2, hm3⟩ := exSCFed_means
  have hex : ∃ k, k < exSCFed.ppr ∧
      0 < calibSectorMean exSCFed.calibTargetN exSCFed.dtFilled exSCFed.dtBuf k := by
    refine ⟨0, by rw [hp]; norm_num, ?_⟩
    rw [ht, hm0]
    norm_num
  have hco := finishCalib_core exSCFed ha (by rw [ht, hl]) hex
  have hlut := (hco.2.1 (by rw [hmd]; norm_num)).1
  rw [ht, hp] at hlut
  refine ⟨hco.1, ?_, ?_, ?_, ?_⟩ <;>
    rw [hlut] <;>
    simp only [calibNewLut, exSCFed_gm, hm0, hm1, hm2, hm3] <;>
    norm_num

/-- C1: for every direction and every calibration run that reaches its lap
target with at least one sector of positive trimmed mean,
`finishCalibrationIfReady` succeeds and sets the armed direction's LUT to
`global_mean / sector_mean[k]`, with entries 1 where the sector mean is
nonpositive (`sector_mean` is the trimmed mean of the filled samples,
`global_mean` the arithmetic mean of the positive sector means); in
particular the PPR=4 run with lap samples (100,110,105), (200,220,210),
(100,110,105), (100,110,105) yields the LUT (1.25, 0.625, 1.25, 1.25). -/
theorem finishCalibration_lut_spec :
    (∀ s : SC, s.calibActive = true → s.calibTargetN ≤ s.calibLap →
      (∃ k0, k0 < s.ppr ∧ 0 < calibSectorMean s.calibTargetN s.dtFilled s.dtBuf k0) →
      (SC.finishCalibrationIfReady s).1 = true ∧
      ∀ k, k < s.ppr →
        (if s.modeDir ≥ 0 then (SC.finishCalibrationIfReady s).2.lutFwd
         else (SC.finishCalibrationIfReady s).2.lutRev) k =
          (if calibSectorMean s.calibTargetN s.dtFilled s.dtBuf k ≤ 0 then 1
           else calibGlobalMean s.ppr s.calibTargetN s.dtFilled s.dtBuf /
                calibSectorMean s.calibTargetN s.dtFilled s.dtBuf k)) ∧
    ((SC.finishCalibrationIfReady exSCFed).1 = true ∧
     (SC.finishCalibrationIfReady exSCFed).2.lutFwd 0 = 5 / 4 ∧
     (SC.finishCalibrationIfReady exSCFed).2.lutFwd 1 = 5 / 8 ∧
     (SC.finishCalibrationIfReady exSCFed).2.lutFwd 2 = 5 / 4 ∧
     (SC.finishCalibrationIfReady exSCFed).2.lutFwd 3 = 5 / 4) := by
  refine ⟨?_, exSCFed_lut⟩
  intro s h1 h2 hex
  have hco := finishCalib_core s h1 h2 hex
  have hgm := calibGlobalMean_pos s.ppr s.calibTargetN s.dtFilled s.dtBuf hex
  refine ⟨hco.1, ?_⟩
  intro k hk
  by_cases hdir : s.modeDir ≥ 0
  · rw [if_pos hdir, (hco.2.1 hdir).1]
    simp only [calibNewLut]
    rw [if_pos hk]
    by_cases hm : calibSectorMean s.calibTargetN s.dtFilled s.dtBuf k ≤ 0
    · rw [if_pos hm, if_pos hm, div_self (ne_of_gt hgm)]
    · rw [if_neg hm, if_neg hm]
  · rw [if_neg hdir, (hco.2.2 hdir).1]
    simp only [calibNewLut]
    rw [if_pos hk]
    by_cases hm : calibSectorMean s.calibTargetN s.dtFilled s.dtBuf k ≤ 0
    · rw [if_pos hm, if_pos hm, div_self (ne_of_gt hgm)]
    · rw [if_neg hm, if_neg hm]

/-- Witness for C1 at the scenario-1 run, sector 1. -/
theorem finishCalibration_lut_spec_witness :
    (SC.finishCalibrationIfReady exSCFed).1 = true ∧
    (if exSCFed.modeDir ≥ 0 then (SC.finishCalibrationIfReady exSCFed).2.lutFwd
     else (SC.finishCalibrationIfReady exSCFed).2.lutRev) 1 =
      (if calibSectorMean exSCFed.calibTargetN exSCFed.dtFilled exSCFed.dtBuf 1 ≤ 0
       then 1
       else calibGlobalMean exSCFed.ppr exSCFed.calibTargetN exSCFed.dtFilled
              exSCFed.dtBuf /
            calibSectorMean exSCFed.calibTargetN exSCFed.dtFilled exSCFed.dtBuf 1) := by
  have h := finishCalibration_lut_spec.1 exSCFed exSCFed_facts.1
    (by rw [exSCFed_facts.2.1, exSCFed_facts.2.2.1])
    ⟨0, by rw [exSCFed_facts.2.2.2.2]; norm_num,
      by rw [exSCFed_facts.2.1, exSCFed_means.1]; norm_num⟩
  exact ⟨h.1, h.2 1 (by rw [exSCFed_facts.2.2.2.2]; norm_num)⟩

/-- Sum of a mapped division is the division of the mapped sum. -/
theorem list_sum_map_div (l : List Nat) (f : Nat → ℚ) (c : ℚ) :
    (l.map fun k => f k / c).sum = (l.map f).sum / c := by
  induction l with
  | nil => simp
  | cons a t ih => simp [ih, add_div]

/-- Splitting a guarded sum by the positivity of `f`. -/
theorem list_sum_map_guard (l : List Nat) (f : Nat → ℚ) (g : ℚ) :
    (l.map fun k => if f k ≤ 0 then g else f k).sum =
      ((l.filter fun k => decide (0 < f k)).map f).sum +
        ((l.length : ℚ) - ((l.filter fun k => decide (0 < f k)).length : ℚ)) * g := by
  induction l with
  | nil => simp
  | cons a t ih =>
    by_cases h : 0 < f a
    · have hda : decide (0 < f a) = true := decide_eq_true h
      have hna : ¬ f a ≤ 0 := not_le.mpr h
      simp only [List.map_cons, List.sum_cons, if_neg hna, List.filter_cons, hda,
        if_true, List.length_cons, ih]
      push_cast
      ring
    · have hda : decide (0 < f a) = false := decide_eq_false h
      have hle : f a ≤ 0 := not_lt.mp h
      simp only [List.map_cons, List.sum_cons, if_pos hle, List.filter_cons, hda,
        if_false, Bool.false_eq_true, List.length_cons, ih]
      push_cast
      ring

/-- C3 (amended): after every successful calibration the armed direction's
LUT entries are all positive, and the arithmetic mean over `k` of their
RECIPROCALS `1/s_d[k]` equals 1 exactly (the arithmetic mean of the entries
themselves is in general larger than 1). -/
theorem calibration_lut_recipMean (s : SC) (h1 : s.calibActive = true)
    (h2 : s.calibTargetN ≤ s.calibLap)
    (hex : ∃ k0, k0 < s.ppr ∧ 0 < calibSectorMean s.calibTargetN s.dtFilled s.dtBuf k0) :
    (∀ k, k < s.ppr →
      0 < (if s.modeDir ≥ 0 then (SC.finishCalibrationIfReady s).2.lutFwd
           else (SC.finishCalibrationIfReady s).2.lutRev) k) ∧
    ((List.range s.ppr).map fun k =>
        ((if s.modeDir ≥ 0 then (SC.finishCalibrationIfReady s).2.lutFwd
          else (SC.finishCalibrationIfReady s).2.lutRev) k)⁻¹).sum / (s.ppr : ℚ) = 1 := by
  obtain ⟨k0, hk0, hp0⟩ := hex
  have hex : ∃ k0, k0 < s.ppr ∧
      0 < calibSectorMean s.calibTargetN s.dtFilled s.dtBuf k0 := ⟨k0, hk0, hp0⟩
  have hco := finishCalib_core s h1 h2 hex
  have hgm := calibGlobalMean_pos s.ppr s.calibTargetN s.dtFilled s.dtBuf hex
  have hppr : 0 < s.ppr := lt_of_le_of_lt (Nat.zero_le k0) hk0
  have hlen := calibPosSectors_length_pos s.ppr s.calibTargetN s.dtFilled s.dtBuf hex
  have hlenQ : ((calibPosSectors s.ppr s.calibTargetN s.dtFilled s.dtBuf).length : ℚ) ≠ 0 := by
    exact_mod_cast Nat.pos_iff_ne_zero.mp hlen
  have hlut :
      (if s.modeDir ≥ 0 then (SC.finishCalibrationIfReady s).2.lutFwd
       else (SC.finishCalibrationIfReady s).2.lutRev) =
        calibNewLut s.ppr s.calibTargetN s.dtFilled s.dtBuf
          (if s.modeDir ≥ 0 then s.lutFwd else s.lutRev) := by
    by_cases hdir : s.modeDir ≥ 0
    · rw [if_pos hdir, if_pos hdir, (hco.2.1 hdir).1]
    · rw [if_neg hdir, if_neg hdir, (hco.2.2 hdir).1]
  rw [hlut]
  constructor
  · intro k hk
    simp only [calibNewLut]
    rw [if_pos hk]
    refine div_pos hgm ?_
    by_cases hm : calibSectorMean s.calibTargetN s.dtFilled s.dtBuf k ≤ 0
    · rw [if_pos hm]; exact hgm
    · rw [if_neg hm]; exact not_le.mp hm
  · have hmapeq :
        ((List.range s.ppr).map fun k =>
          (calibNewLut s.ppr s.calibTargetN s.dtFilled s.dtBuf
            (if s.modeDir ≥ 0 then s.lutFwd else s.lutRev) k)⁻¹) =
        ((List.range s.ppr).map fun k =>
          (if calibSectorMean s.calibTargetN s.dtFilled s.dtBuf k ≤ 0
           then calibGlobalMean s.ppr s.calibTargetN s.dtFilled s.dtBuf
           else calibSectorMean s.calibTargetN s.dtFilled s.dtBuf k) /
            calibGlobalMean s.ppr s.calibTargetN s.dtFilled s.dtBuf) := by
      refine List.map_congr_left ?_
      intro k hkmem
      have hk := List.mem_range.mp hkmem
      simp only [calibNewLut]
      rw [if_pos hk, inv_div]
    rw [hmapeq, list_sum_map_div]
    have hfd : ((List.range s.ppr).filter fun k =>
        decide (0 < calibSectorMean s.calibTargetN s.dtFilled s.dtBuf k)) =
        calibPosSectors s.ppr s.calibTargetN s.dtFilled s.dtBuf := rfl
    have hsum : calibGlobalMean s.ppr s.calibTargetN s.dtFilled s.dtBuf *
        ((calibPosSectors s.ppr s.calibTargetN s.dtFilled s.dtBuf).length : ℚ) =
        ((calibPosSectors s.ppr s.calibTargetN s.dtFilled s.dtBuf).map
          (calibSectorMean s.calibTargetN s.dtFilled s.dtBuf)).sum := by
      simp only [calibGlobalMean]
      exact div_mul_cancel₀ _ hlenQ
    have htot : ((List.range s.ppr).map fun k =>
        if calibSectorMean s.calibTargetN s.dtFilled s.dtBuf k ≤ 0
        then calibGlobalMean s.ppr s.calibTargetN s.dtFilled s.dtBuf
        else calibSectorMean s.calibTargetN s.dtFilled s.dtBuf k).sum =
        (s.ppr : ℚ) * calibGlobalMean s.ppr s.calibTargetN s.dtFilled s.dtBuf := by
      rw [list_sum_map_guard, hfd, List.length_range, ← hsum]
      ring
    rw [htot, mul_div_assoc,
      div_self (ne_of_gt hgm), mul_one, div_self (by exact_mod_cast Nat.pos_iff_ne_zero.mp hppr)]

/-- Witness for C3 at the scenario-1 run. -/
theorem calibration_lut_recipMean_witness :
    ((List.range exSCFed.ppr).map fun k =>
        ((if exSCFed.modeDir ≥ 0 then (SC.finishCalibrationIfReady exSCFed).2.lutFwd
          else (SC.finishCalibrationIfReady exSCFed).2.lutRev) k)⁻¹).sum /
      (exSCFed.ppr : ℚ) = 1 :=
  (calibration_lut_recipMean exSCFed exSCFed_facts.1
    (by rw [exSCFed_facts.2.1, exSCFed_facts.2.2.1])
    ⟨0, by rw [exSCFed_facts.2.2.2.2]; norm_num,
      by rw [exSCFed_facts.2.1, exSCFed_means.1]; norm_num⟩).2

/-- Counterexample to C3 as stated: the scenario-1 calibration succeeds with
LUT (5/4, 5/8, 5/4, 5/4), whose arithmetic mean is 35/32 = 1.09375 — not 1
within any small epsilon. -/
theorem calibration_lut_mean_counterexample :
    (SC.finishCalibrationIfReady exSCFed).1 = true ∧
    ((List.range exSCFed.ppr).map
        (SC.finishCalibrationIfReady exSCFed).2.lutFwd).sum / (exSCFed.ppr : ℚ) =
      35 / 32 ∧
    ¬ (|((List.range exSCFed.ppr).map
          (SC.finishCalibrationIfReady exSCFed).2.lutFwd).sum / (exSCFed.ppr : ℚ) - 1|
        ≤ 1 / 1000) := by
  obtain ⟨hok, hl0, hl1, hl2, hl3⟩ := exSCFed_lut
  have hp : exSCFed.ppr = 4 := exSCFed_facts.2.2.2.2
  have hsum : ((List.range exSCFed.ppr).map
      (SC.finishCalibrationIfReady exSCFed).2.lutFwd).sum / (exSCFed.ppr : ℚ) =
      35 / 32 := by
    rw [hp, show List.range 4 = [0, 1, 2, 3] from rfl]
    simp only [List.map_cons, List.map_nil, List.sum_cons, List.sum_nil, hl0, hl1,
      hl2, hl3]
    norm_num
  refine ⟨hok, hsum, ?_⟩
  rw [hsum, show (35 : ℚ) / 32 - 1 = 3 / 32 from by norm_num,
    abs_of_nonneg (by norm_num : (0 : ℚ) ≤ 3 / 32)]
  norm_num

/-- A fold whose step fixes every accumulator returns its initial value. -/
theorem foldl_fixed {α β : Type} (f : α → β → α) (l : List β)
    (h : ∀ b ∈ l, ∀ a, f a b = a) : ∀ a, l.foldl f a = a := by
  induction l with
  | nil => intro a; rfl
  | cons x t ih =>
    intro a
    rw [List.foldl_cons, h x (List.mem_cons_self x t) a]
    exact ih (fun b hb a2 => h b (List.mem_cons_of_mem x hb) a2) a

/-- Core zero-sum behavior of `finishAlignmentIfReady`: when every recorded
lap sums to ≤ 0 no single-lap search succeeds, so the vote fold never fires
and the majority scan returns offset 0 with the sentinel score `1e30`; the
offset of the armed direction is overwritten with 0. -/
theorem finishAlign_zeroSum_core (s : SC) (h1 : s.alignActive = true)
    (h2 : s.alignTargetN ≤ s.alignLap)
    (h3 : ∀ j, j < s.alignTargetN →
      ((List.range s.ppr).map fun k => s.alignBuf k j).sum ≤ 0) :
    (SC.finishAlignmentIfReady s).1 = some (0, 10 ^ 30) ∧
    (s.modeDir ≥ 0 → (SC.finishAlignmentIfReady s).2.offFwd = 0) ∧
    (¬ s.modeDir ≥ 0 → (SC.finishAlignmentIfReady s).2.offRev = 0) := by
  have hnl : ¬ s.alignLap < s.alignTargetN := not_lt.mpr h2
  have hna : ¬ ¬ (s.alignActive : Prop) := by rw [h1]; exact not_not_intro rfl
  have hbosn : ∀ j, j < s.alignTargetN → ∀ fwd : Bool,
      SC.bestOffsetSingleLap s j fwd = none := by
    intro j hj fwd
    unfold SC.bestOffsetSingleLap
    rw [if_pos (h3 j hj)]
  have hva : ∀ fwd : Bool, SC.alignVotes s fwd = ((fun _ => 0), 10 ^ 30, 0) := by
    intro fwd
    unfold SC.alignVotes
    refine foldl_fixed _ _ ?_ _
    intro j hj acc
    simp only [hbosn j (List.mem_range.mp hj) fwd]
  have hmaj : (List.range s.ppr).foldl
      (fun (p : Nat × Nat) k => if p.2 < (fun _ => 0 : Nat → Nat) k then (k, (fun _ => 0 : Nat → Nat) k) else p)
      (0, 0) = ((0 : Nat), (0 : Nat)) :=
    foldl_fixed _ _ (fun k _ p => if_neg (Nat.not_lt_zero _)) _
  simp only [SC.finishAlignmentIfReady]
  rw [if_neg hna, if_neg hnl]
  rw [hva]
  simp only [hmaj]
  refine ⟨trivial, ?_, ?_⟩
  · intro hdir
    rw [if_pos hdir]
    simp [SC.save]
  · intro hdir
    rw [if_neg hdir]
    simp [SC.save]

/-- C4 (corrected): when an alignment run completes its target laps but
every recorded lap has nonpositive period sum, the run does NOT abort: it
returns success carrying the sentinel score, and it overwrites the armed
direction's stored offset with 0 (the initialized best offset). -/
theorem finishAlignment_zeroSum_spec (s : SC) (h1 : s.alignActive = true)
    (h2 : s.alignTargetN ≤ s.alignLap)
    (h3 : ∀ j, j < s.alignTargetN →
      ((List.range s.ppr).map fun k => s.alignBuf k j).sum ≤ 0) :
    (SC.finishAlignmentIfReady s).1 = some (0, 10 ^ 30) ∧
    (s.modeDir ≥ 0 → (SC.finishAlignmentIfReady s).2.offFwd = 0) ∧
    (¬ s.modeDir ≥ 0 → (SC.finishAlignmentIfReady s).2.offRev = 0) :=
  finishAlign_zeroSum_core s h1 h2 h3

/-- Counterexample to C4 as stated: a completed one-lap alignment whose lap
is all zeros returns success and modifies the stored forward offset
(2 becomes 0) instead of aborting untouched. -/
theorem finishAlignment_zeroSum_counterexample :
    exSCAlign.alignActive = true ∧
    exSCAlign.alignTargetN ≤ exSCAlign.alignLap ∧
    ((List.range exSCAlign.ppr).map fun k => exSCAlign.alignBuf k 0).sum ≤ 0 ∧
    exSCAlign.offFwd = 2 ∧
    (SC.finishAlignmentIfReady exSCAlign).1 ≠ none ∧
    (SC.finishAlignmentIfReady exSCAlign).2.offFwd ≠ exSCAlign.offFwd := by
  have hsum : ∀ j, j < exSCAlign.alignTargetN →
      ((List.range exSCAlign.ppr).map fun k => exSCAlign.alignBuf k j).sum ≤ 0 := by
    intro j _
    rw [show List.range exSCAlign.ppr = [0, 1, 2, 3] from rfl]
    norm_num [exSCAlign, exSC0]
  have hco := finishAlign_zeroSum_core exSCAlign (by decide) (by decide) hsum
  refine ⟨by decide, by decide, hsum 0 (by decide), by decide, ?_, ?_⟩
  · rw [hco.1]
    exact Option.some_ne_none _
  · rw [hco.2.1 (by decide)]
    decide

/-- Witness for C4 at the all-zero one-lap alignment state. -/
theorem finishAlignment_zeroSum_spec_witness :
    (SC.finishAlignmentIfReady exSCAlign).1 = some (0, 10 ^ 30) ∧
    (SC.finishAlignmentIfReady exSCAlign).2.offFwd = 0 := by
  have hsum : ∀ j, j < exSCAlign.alignTargetN →
      ((List.range exSCAlign.ppr).map fun k => exSCAlign.alignBuf k j).sum ≤ 0 := by
    intro j _
    rw [show List.range exSCAlign.ppr = [0, 1, 2, 3] from rfl]
    norm_num [exSCAlign, exSC0]
  have h := finishAlignment_zeroSum_spec exSCAlign (by decide) (by decide) hsum
  exact ⟨h.1, h.2.1 (by decide)⟩

/-- The backward sector step equals adding `ppr - 1` modulo `ppr`. -/
theorem sector_dec_mod (ppr t : Nat) (hppr : 0 < ppr) (ht : t < ppr) :
    (if t = 0 then ppr - 1 else t - 1) = (t + (ppr - 1)) % ppr := by
  cases t with
  | zero =>
    rw [if_pos rfl, Nat.zero_add, Nat.mod_eq_of_lt (Nat.sub_lt hppr Nat.one_pos)]
  | succ u =>
    rw [if_neg (Nat.succ_ne_zero u), Nat.succ_sub_one,
      show u + 1 + (ppr - 1) = u + ppr by omega, Nat.add_mod_right,
      Nat.mod_eq_of_lt (by omega : u < ppr)]

/-- One pulse through `_applyPeriodAndCompute` with no calibrator attached:
the configuration is untouched, the pulse is counted, the period EMA moves
toward the supplied period, and the sector index steps once in the current
direction. -/
theorem applyPeriod_step (e : Enc) (P nowMs : Nat) (hcal : e.cal = none)
    (hppr : 0 < e.ppr) (_hsec : e.sectorIdx < e.ppr)
    (ha0 : 0 ≤ e.alphaPeriod) (ha1 : e.alphaPeriod ≤ 1) (hP : 0 < P) :
    (Enc.applyPeriodAndCompute e P nowMs).cal = none ∧
    (Enc.applyPeriodAndCompute e P nowMs).ppr = e.ppr ∧
    (Enc.applyPeriodAndCompute e P nowMs).alphaPeriod = e.alphaPeriod ∧
    (Enc.applyPeriodAndCompute e P nowMs).stepDir = e.stepDir ∧
    (Enc.applyPeriodAndCompute e P nowMs).sectorIdx < e.ppr ∧
    (Enc.applyPeriodAndCompute e P nowMs).totalCount = e.totalCount + 1 ∧
    |(Enc.applyPeriodAndCompute e P nowMs).periodEmaUs - (P : ℚ)| ≤
      |e.periodEmaUs - (P : ℚ)| ∧
    (0 < e.stepDir →
      (Enc.applyPeriodAndCompute e P nowMs).sectorIdx = (e.sectorIdx + 1) % e.ppr) ∧
    (¬ 0 < e.stepDir →
      (Enc.applyPeriodAndCompute e P nowMs).sectorIdx =
        (e.sectorIdx + (e.ppr - 1)) % e.ppr) := by
  have hPQ : (0 : ℚ) < (P : ℚ) := by exact_mod_cast hP
  have hcs : Enc.calStep e ((P : Nat) : ℚ) = (e, ((P : Nat) : ℚ)) := by
    simp only [Enc.calStep, hcal]
  have hemaPos : 0 < (if e.periodEmaUs ≤ 0 then ((P : Nat) : ℚ)
      else (1 - e.alphaPeriod) * e.periodEmaUs + e.alphaPeriod * (P : ℚ)) := by
    by_cases hema : e.periodEmaUs ≤ 0
    · rw [if_pos hema]; exact hPQ
    · rw [if_neg hema]
      push_neg at hema
      rcases lt_or_eq_of_le ha1 with h1 | h1
      · have hterm : 0 < (1 - e.alphaPeriod) * e.periodEmaUs :=
          mul_pos (by linarith) hema
        have hterm2 : 0 ≤ e.alphaPeriod * (P : ℚ) := mul_nonneg ha0 hPQ.le
        linarith
      · have hone : (1 - (1 : ℚ)) * e.periodEmaUs + 1 * (P : ℚ) = (P : ℚ) := by ring
        rw [h1, hone]
        exact hPQ
  have hemaLe : |(if e.periodEmaUs ≤ 0 then ((P : Nat) : ℚ)
      else (1 - e.alphaPeriod) * e.periodEmaUs + e.alphaPeriod * (P : ℚ)) - (P : ℚ)| ≤
      |e.periodEmaUs - (P : ℚ)| := by
    by_cases hema : e.periodEmaUs ≤ 0
    · rw [if_pos hema, sub_self, abs_zero]
      exact abs_nonneg _
    · rw [if_neg hema]
      have hfac : (1 - e.alphaPeriod) * e.periodEmaUs + e.alphaPeriod * (P : ℚ) - (P : ℚ) =
          (1 - e.alphaPeriod) * (e.periodEmaUs - (P : ℚ)) := by ring
      rw [hfac, abs_mul, abs_of_nonneg (by linarith : (0 : ℚ) ≤ 1 - e.alphaPeriod)]
      exact mul_le_of_le_one_left (abs_nonneg _) (by linarith)
  simp only [Enc.applyPeriodAndCompute, hcs]
  rw [if_pos hemaPos]
  by_cases hdir : 0 < e.stepDir
  · rw [if_pos hdir]
    exact ⟨hcal, rfl, rfl, rfl, Nat.mod_lt _ hppr, rfl, hemaLe, fun _ => rfl,
      fun h => absurd hdir h⟩
  · rw [if_neg hdir]
    refine ⟨hcal, rfl, rfl, rfl, ?_, rfl, hemaLe, fun h => absurd h hdir, fun _ => ?_⟩
    · rw [sector_dec_mod e.ppr e.sectorIdx hppr _hsec]
      exact Nat.mod_lt _ hppr
    · exact sector_dec_mod e.ppr e.sectorIdx hppr _hsec

/-- Iterating `_applyPeriodAndCompute` `n` times with no calibrator: the
pulse count grows by exactly `n`, the EMA keeps approaching the period, and
the sector index advances by `n` steps (mod PPR) in the fixed direction. -/
theorem applyPeriod_iterate (P nowMs : Nat) (hP : 0 < P) :
    ∀ (n : Nat) (e : Enc), e.cal = none → 0 < e.ppr → e.sectorIdx < e.ppr →
      0 ≤ e.alphaPeriod → e.alphaPeriod ≤ 1 →
      ((List.range n).foldl (fun st _ => Enc.applyPeriodAndCompute st P nowMs) e).cal
          = none ∧
      ((List.range n).foldl (fun st _ => Enc.applyPeriodAndCompute st P nowMs) e).ppr
          = e.ppr ∧
      ((List.range n).foldl
          (fun st _ => Enc.applyPeriodAndCompute st P nowMs) e).alphaPeriod
          = e.alphaPeriod ∧
      ((List.range n).foldl (fun st _ => Enc.applyPeriodAndCompute st P nowMs) e).stepDir
          = e.stepDir ∧
      ((List.range n).foldl
          (fun st _ => Enc.applyPeriodAndCompute st P nowMs) e).sectorIdx < e.ppr ∧
      ((List.range n).foldl
          (fun st _ => Enc.applyPeriodAndCompute st P nowMs) e).totalCount
          = e.totalCount + n ∧
      |((List.range n).foldl
          (fun st _ => Enc.applyPeriodAndCompute st P nowMs) e).periodEmaUs - (P : ℚ)| ≤
        |e.periodEmaUs - (P : ℚ)| ∧
      (0 < e.stepDir →
        ((List.range n).foldl
            (fun st _ => Enc.applyPeriodAndCompute st P nowMs) e).sectorIdx
          = (e.sectorIdx + n) % e.ppr) ∧
      (¬ 0 < e.stepDir →
        ((List.range n).foldl
            (fun st _ => Enc.applyPeriodAndCompute st P nowMs) e).sectorIdx
          = (e.sectorIdx + n * (e.ppr - 1)) % e.ppr) := by
  intro n
  induction n with
  | zero =>
    intro e h1 h2 h3 _h4 _h5
    refine ⟨h1, rfl, rfl, rfl, h3, by simp, le_refl _, ?_, ?_⟩ <;> intro _ <;>
      simp [Nat.mod_eq_of_lt h3]
  | succ m ih =>
    intro e h1 h2 h3 h4 h5
    obtain ⟨icad, ippr, ialf, idir, isec, icnt, iema, iinc, idec⟩ := ih e h1 h2 h3 h4 h5
    set eM := (List.range m).foldl (fun st _ => Enc.applyPeriodAndCompute st P nowMs) e
      with heM
    have hstep := applyPeriod_step eM P nowMs icad (ippr ▸ h2) (ippr ▸ isec)
      (ialf ▸ h4) (ialf ▸ h5) hP
    have hfold : (List.range (m + 1)).foldl
        (fun st _ => Enc.applyPeriodAndCompute st P nowMs) e =
        Enc.applyPeriodAndCompute eM P nowMs := by
      rw [List.range_succ, List.foldl_append, ← heM]
      rfl
    rw [hfold]
    obtain ⟨scad, sppr, salf, sdir, ssec, scnt, sema, sinc, sdec⟩ := hstep
    refine ⟨scad, sppr.trans ippr, salf.trans ialf, sdir.trans idir,
      ippr ▸ ssec, ?_, le_trans sema iema, ?_, ?_⟩
    · rw [scnt, icnt]
      omega
    · intro hdp
      have hdpM : 0 < eM.stepDir := idir ▸ hdp
      rw [sinc hdpM, iinc hdp, ippr, Nat.mod_add_mod, Nat.add_assoc]
    · intro hdp
      have hdpM : ¬ 0 < eM.stepDir := fun hc => hdp (idir ▸ hc)
      rw [sdec hdpM, idec hdp, ippr, Nat.mod_add_mod,
        show e.sectorIdx + m * (e.ppr - 1) + (e.ppr - 1) =
          e.sectorIdx + (m + 1) * (e.ppr - 1) by ring]

/-- C5 (amended): for every estimator with NO calibrator attached, whenever
the snapshot count advanced by `n ≥ 1` over the previously consumed count
with last recorded period `P > 0`, `update` processes exactly `n` pulses
each using `P`: the pulse total grows by `n`, the period EMA moves toward
`P`, and the sector index advances by `n` steps modulo PPR in the current
step direction (with an attached calibrator the processed periods are the
corrected ones instead). -/
theorem encUpdate_multiPulse (e : Enc) (cntSnap perSnap nowMs n : Nat)
    (hcal : e.cal = none) (hppr : 0 < e.ppr) (hsec : e.sectorIdx < e.ppr)
    (ha0 : 0 ≤ e.alphaPeriod) (ha1 : e.alphaPeriod ≤ 1) (hP : 0 < perSnap)
    (hle : e.lastConsumed ≤ cntSnap) (hn : cntSnap - e.lastConsumed = n)
    (hn1 : 1 ≤ n) (hlt : cntSnap < 2 ^ 32) :
    (Enc.update e cntSnap perSnap nowMs).totalCount = e.totalCount + n ∧
    |(Enc.update e cntSnap perSnap nowMs).periodEmaUs - (perSnap : ℚ)| ≤
      |e.periodEmaUs - (perSnap : ℚ)| ∧
    (0 < e.stepDir →
      (Enc.update e cntSnap perSnap nowMs).sectorIdx = (e.sectorIdx + n) % e.ppr) ∧
    (¬ 0 < e.stepDir →
      (Enc.update e cntSnap perSnap nowMs).sectorIdx =
        (e.sectorIdx + n * (e.ppr - 1)) % e.ppr) := by
  have hne : ¬ cntSnap = e.lastConsumed := by omega
  have hdelta : (cntSnap + 2 ^ 32 - e.lastConsumed) % 2 ^ 32 = n := by omega
  have heq : Enc.update e cntSnap perSnap nowMs =
      (List.range n).foldl (fun st _ => Enc.applyPeriodAndCompute st perSnap nowMs)
        { e with lastConsumed := cntSnap } := by
    have ho : (fun (st : Enc) (_ : Nat) =>
        if perSnap = 0 then st else Enc.applyPeriodAndCompute st perSnap nowMs) =
        fun st _ => Enc.applyPeriodAndCompute st perSnap nowMs := by
      funext st i
      rw [if_neg (Nat.pos_iff_ne_zero.mp hP)]
    simp only [Enc.update, hdelta, ho]
    rw [if_neg hne]
  rw [heq]
  have h := applyPeriod_iterate perSnap nowMs hP n { e with lastConsumed := cntSnap }
    hcal hppr hsec ha0 ha1
  exact ⟨h.2.2.2.2.2.1, h.2.2.2.2.2.2.1, h.2.2.2.2.2.2.2.1, h.2.2.2.2.2.2.2.2⟩

/-- Witness for C5 at scenario 5: count jump 0 → 3 with `P = 10000` and
`PPR = 6` advances the sector index by 3 and counts exactly 3 pulses. -/
theorem encUpdate_multiPulse_witness :
    (Enc.update exEnc 3 10000 0).totalCount = exEnc.totalCount + 3 ∧
    (Enc.update exEnc 3 10000 0).sectorIdx = (exEnc.sectorIdx + 3) % exEnc.ppr := by
  have h := encUpdate_multiPulse exEnc 3 10000 0 3 rfl (by decide) (by decide)
    (by norm_num [exEnc]) (by norm_num [exEnc]) (by norm_num) (by decide) (by decide)
    (by norm_num) (by norm_num)
  exact ⟨h.1, h.2.2.1 (by decide)⟩

/-- Counterexample to C5 as stated: with an attached calibrator whose active
LUT doubles every period, a one-pulse tick with recorded period 10000 moves
the EMA from 10000 to 12500 — away from the recorded period, not toward
it. -/
theorem encUpdate_multiPulse_counterexample :
    (Enc.update exEncLut 1 10000 0).totalCount = exEncLut.totalCount + 1 ∧
    (Enc.update exEncLut 1 10000 0).periodEmaUs = 12500 ∧
    ¬ (|(Enc.update exEncLut 1 10000 0).periodEmaUs - (10000 : ℚ)| ≤
        |exEncLut.periodEmaUs - (10000 : ℚ)|) := by
  have hstep : Enc.update exEncLut 1 10000 0 =
      Enc.applyPeriodAndCompute { exEncLut with lastConsumed := 1 } 10000 0 := by
    simp only [Enc.update]
    rw [if_neg (by decide : ¬ (1 : Nat) = exEncLut.lastConsumed)]
    rw [show (1 + 2 ^ 32 - exEncLut.lastConsumed) % 2 ^ 32 = 1 from by decide]
    rfl
  have hout : (Enc.applyPeriodAndCompute { exEncLut with lastConsumed := 1 } 10000 0).periodEmaUs
      = 12500 ∧
      (Enc.applyPeriodAndCompute { exEncLut with lastConsumed := 1 } 10000 0).totalCount
      = 1 := by
    norm_num [Enc.applyPeriodAndCompute, Enc.calStep, LSC.correctDt, exEncLut, exEnc,
      exLSC]
  have hema : exEncLut.periodEmaUs = 10000 := rfl
  refine ⟨?_, ?_, ?_⟩
  · rw [hstep, hout.2]
    decide
  · rw [hstep, hout.1]
  · rw [hstep, hout.1, hema]
    rw [show (12500 : ℚ) - 10000 = 2500 from by norm_num, sub_self, abs_zero,
      abs_of_nonneg (by norm_num : (0 : ℚ) ≤ 2500)]
    norm_num

end Proto
